import Mathlib

/-!
Verification of the ClearFlow flow engine (message-driven workflow library).

This file gives a shallow embedding, in Lean, of the parts of the library
that the specification talks about:

* the message envelope (`clearflow/message.py`): frozen dataclass with
  `id`, `triggered_by_id`, `timestamp`, `flow_id` and subtype payload;
* the node contract (`clearflow/message_node.py`): a named asynchronous
  transformer from message to message;
* the flow executor (`clearflow/message_flow.py`, class `MessageFlow`):
  the routing loop keyed on `(type(message), node_name)`, the guarded
  callback dispatch `_safe_callback`, and the error paths;
* the builder (`clearflow/message_flow.py`, class `_MessageFlowBuilder`):
  `route`, `with_callbacks`, `end`, with reachability and duplicate checks;
* the observer decorator (`clearflow/observer.py`, class `ObservableFlow`):
  the re-implemented execution loop with observer interception.

Modelling conventions.  Python runtime types are represented by their
name (a `String`): routing compares `type(message)` for identity, and the
embedding compares the `typeName` field.  Asynchronous functions are
modelled as pure functions into `Except PyExc`: a call either returns or
raises; the engine is single-threaded and deterministic, so the `await`
points do not affect the values computed.  The unbounded `while True`
dispatch loop is modelled with explicit fuel; running out of fuel is a
distinct outcome (`Outcome.fuelOut`), never confused with a raise or a
normal return.  Python object identity (`id()`) is modelled by an
explicit `objId` field so that value equality and identity can be told
apart.  Writes to stderr / the logger are collected in a `List String`.
-/

namespace Clearflow

/-- Exceptions of the embedded Python code.  `valueError` models the
`ValueError`s raised by the engine itself; `userError` models arbitrary
exceptions raised by user code (nodes, observers, callback hooks). -/
inductive PyExc where
  | valueError (text : String)
  | userError (text : String)
deriving DecidableEq

/-- The message envelope, from `clearflow/message.py`.

`Message` there is `@dataclass(frozen=True, kw_only=True)` with fields
`id : uuid.UUID`, `triggered_by_id : uuid.UUID | None`,
`timestamp : datetime`, `flow_id : uuid.UUID`; concrete subtypes add
payload fields.  The embedding collapses a concrete instance to:

* `typeName` — the name of its concrete class (`type(m).__name__`),
  which is what routing dispatches on;
* `objId` — the Python object identity (`id(m)`), NOT a dataclass field;
* the four envelope fields, with UUIDs and the timestamp as `Nat`;
* `payload` — stands for the tuple of subtype payload fields. -/
structure Message where
  typeName : String
  objId : Nat
  id : Nat
  triggered_by_id : Option Nat
  timestamp : Nat
  flow_id : Nat
  payload : Nat
deriving DecidableEq

/-- The `__eq__` generated for the frozen dataclass `Message` (dataclasses
with `eq=True` compare `self.__class__ is other.__class__` and then the
tuple of declared fields).  Object identity (`objId`) is not a field and
does not participate. -/
def messageEq (a b : Message) : Bool :=
  a.typeName == b.typeName && a.id == b.id
    && a.triggered_by_id == b.triggered_by_id
    && a.timestamp == b.timestamp && a.flow_id == b.flow_id
    && a.payload == b.payload

/-- The `__hash__` generated for a frozen dataclass with `eq=True`: a hash
of the tuple of declared field values (object identity does not
participate, so the function is determined by the field values). -/
def messageHash (m : Message) : Nat :=
  m.id + 3 * (match m.triggered_by_id with | none => 0 | some k => 2 * k + 1)
    + 5 * m.timestamp + 7 * m.flow_id + 11 * m.payload + 13 * m.typeName.length

/-- A node, from `clearflow/message_node.py`: a name plus an asynchronous
`process` from message to message, which either returns or raises. -/
structure PyNode where
  name : String
  process : Message → Except PyExc Message

/-- Route key of `MessageFlow`: `MessageRouteKey = (outcome_type, node_name)`
(`clearflow/message_flow.py` line 25), with the type given by name. -/
abbrev MessageRouteKey := String × String

/-- A route table: `Mapping[MessageRouteKey, Node | None]` modelled as an
insertion-ordered association list.  `none` as destination is the
terminal marker (Python `None`). -/
abbrev RouteTable := List (MessageRouteKey × Option PyNode)

/-- Dict lookup `routes[key]` / `routes.get(key)`: first (unique) match.
Returns `none` when the key is absent, `some d` for destination `d`. -/
def lookupRoute (rs : RouteTable) (k : MessageRouteKey) : Option (Option PyNode) :=
  match rs with
  | [] => none
  | (k2, v) :: rest => if k2 = k then some v else lookupRoute rest k

/-- Dict membership `key in routes`. -/
def containsKey (rs : RouteTable) (k : MessageRouteKey) : Bool :=
  (lookupRoute rs k).isSome

/-- A callback handler, from `clearflow/callbacks.py` (`CallbackHandler`):
four asynchronous lifecycle hooks, each of which either returns or
raises. -/
structure CallbackHandler where
  on_flow_start : String → Message → Except PyExc Unit
  on_flow_end : String → Message → Option PyExc → Except PyExc Unit
  on_node_start : String → Message → Except PyExc Unit
  on_node_end : String → Message → Option PyExc → Except PyExc Unit

/-- The events the executor reports to its callback surface; one value per
`_safe_callback` invocation, carrying the hook name and arguments. -/
inductive CbEvent where
  | flowStart (flowName : String) (m : Message)
  | flowEnd (flowName : String) (m : Message) (error : Option PyExc)
  | nodeStart (nodeName : String) (m : Message)
  | nodeEnd (nodeName : String) (m : Message) (error : Option PyExc)
deriving DecidableEq

/-- Dispatch one event to the matching hook of a handler
(`getattr(self.callbacks, method)(*args)`). -/
def invokeHook (h : CallbackHandler) : CbEvent → Except PyExc Unit
  | .flowStart f m => h.on_flow_start f m
  | .flowEnd f m e => h.on_flow_end f m e
  | .nodeStart n m => h.on_node_start n m
  | .nodeEnd n m e => h.on_node_end n m e

/-- Name of the hook an event corresponds to, for the stderr diagnostic. -/
def hookName : CbEvent → String
  | .flowStart _ _ => "on_flow_start"
  | .flowEnd _ _ _ => "on_flow_end"
  | .nodeStart _ _ => "on_node_start"
  | .nodeEnd _ _ _ => "on_node_end"

/-- Text of an exception, for diagnostics. -/
def excText : PyExc → String
  | .valueError t => t
  | .userError t => t

/-- `MessageFlow._safe_callback` (`clearflow/message_flow.py` lines 50-70):
if no handler is attached, return immediately; otherwise invoke the hook
and, if it raises, write `"Callback {method} failed: {e}"` to stderr and
continue.  The returned list is the stderr lines produced. -/
def safeCallback (callbacks : Option CallbackHandler) (evt : CbEvent) : List String :=
  match callbacks with
  | none => []
  | some h =>
    match invokeHook h evt with
    | .ok _ => []
    | .error e => ["Callback " ++ hookName evt ++ " failed: " ++ excText e]

/-- `MessageFlow` (`clearflow/message_flow.py` lines 28-152): name, start
node, route table, optional callbacks. -/
structure MessageFlow where
  name : String
  start_node : PyNode
  routes : RouteTable
  callbacks : Option CallbackHandler

/-- The `ValueError` message of `MessageFlow._get_next_node` when no route
matches: `f"No route defined for message type \x7bX\x7d from node \x7bN\x7d"`
with both names quoted. -/
def unroutedText (typeName nodeName : String) : String :=
  "No route defined for message type \x27" ++ typeName ++ "\x27 from node \x27"
    ++ nodeName ++ "\x27"

/-- The exception raised by `MessageFlow._get_next_node` on a missing
route. -/
def unroutedError (typeName nodeName : String) : PyExc :=
  .valueError (unroutedText typeName nodeName)

/-- `MessageFlow._get_next_node` (lines 97-115): look the key
`(type(message), current_node.name)` up in `routes`; raise `ValueError`
when absent; otherwise return the destination (`none` = terminal). -/
def getNextNode (F : MessageFlow) (m : Message) (node : PyNode) :
    Except PyExc (Option PyNode) :=
  match lookupRoute F.routes (m.typeName, node.name) with
  | none => .error (unroutedError m.typeName node.name)
  | some dest => .ok dest

/-- Result of one run of the executor: normal return, raised exception, or
fuel exhaustion (the Python loop still running). -/
inductive Outcome where
  | ok (m : Message)
  | exc (e : PyExc)
  | fuelOut
deriving DecidableEq

/-- The body of `MessageFlow.process` after `on_flow_start` (lines
130-152), fuelled.  Each iteration is `_execute_node` (lines 72-95): emit
`on_node_start`, run the node, emit `on_node_end` (with the output on
success, with the input and the error on a raise), then `_get_next_node`,
then either terminate (emitting `on_flow_end` with the output), continue,
or — on any exception — emit `on_flow_end` with the current (pre-hop)
message and the error, and re-raise.  Returns the outcome, the emitted
callback events in order, and the stderr lines. -/
def processLoop (F : MessageFlow) : Nat → PyNode → Message →
    Outcome × List CbEvent × List String
  | 0, _, _ => (.fuelOut, [], [])
  | fuel + 1, node, msg =>
    let eStart := CbEvent.nodeStart node.name msg
    let logStart := safeCallback F.callbacks eStart
    match node.process msg with
    | .error e =>
      let eEnd := CbEvent.nodeEnd node.name msg (some e)
      let eFlow := CbEvent.flowEnd F.name msg (some e)
      (.exc e, [eStart, eEnd, eFlow],
        logStart ++ safeCallback F.callbacks eEnd ++ safeCallback F.callbacks eFlow)
    | .ok out =>
      let eEnd := CbEvent.nodeEnd node.name out none
      let logEnd := safeCallback F.callbacks eEnd
      match lookupRoute F.routes (out.typeName, node.name) with
      | none =>
        let e := unroutedError out.typeName node.name
        let eFlow := CbEvent.flowEnd F.name msg (some e)
        (.exc e, [eStart, eEnd, eFlow],
          logStart ++ logEnd ++ safeCallback F.callbacks eFlow)
      | some none =>
        let eFlow := CbEvent.flowEnd F.name out none
        (.ok out, [eStart, eEnd, eFlow],
          logStart ++ logEnd ++ safeCallback F.callbacks eFlow)
      | some (some next) =>
        let r := processLoop F fuel next out
        (r.1, eStart :: eEnd :: r.2.1, logStart ++ logEnd ++ r.2.2)

/-- `MessageFlow.process` (lines 117-152): emit `on_flow_start`, then run
the dispatch loop. -/
def MessageFlow.processRun (F : MessageFlow) (fuel : Nat) (m : Message) :
    Outcome × List CbEvent × List String :=
  let e0 := CbEvent.flowStart F.name m
  let r := processLoop F fuel F.start_node m
  (r.1, e0 :: r.2.1, safeCallback F.callbacks e0 ++ r.2.2)

/-- Set insertion for `frozenset | {name}` (`reachable_nodes` is a
`frozenset[str]`; only membership is ever queried). -/
def insertName (l : List String) (n : String) : List String :=
  if n ∈ l then l else l ++ [n]

/-- `_MessageFlowBuilder` (`clearflow/message_flow.py` lines 155-298):
immutable builder state — name, type-erased start node, routes so far,
names reachable from the start, optional callbacks. -/
structure MFBuilder where
  name : String
  start_node : PyNode
  routes : RouteTable
  reachable_nodes : List String
  callbacks : Option CallbackHandler

/-- The `ValueError` message of the reachability check: `f"Cannot \x7baction\x7d
node \x7bname\x7d - not reachable from start"` where action is `"end at"` for
a termination route and `"route from"` otherwise. -/
def unreachableText (isTermination : Bool) (nodeName : String) : String :=
  "Cannot " ++ (if isTermination then "end at" else "route from")
    ++ " node \x27" ++ nodeName ++ "\x27 - not reachable from start"

/-- The `ValueError` message of the duplicate check: `f"Route already
defined for message type \x7bT\x7d from node \x7bN\x7d"`. -/
def duplicateText (outcome nodeName : String) : String :=
  "Route already defined for message type \x27" ++ outcome
    ++ "\x27 from node \x27" ++ nodeName ++ "\x27"

/-- `_MessageFlowBuilder._validate_and_create_route` (lines 179-208):
check reachability of the source, then check that `(outcome, from_node_name)`
is not already keyed in `routes`; return the route key. -/
def validateAndCreateRoute (b : MFBuilder) (from_node_name : String)
    (outcome : String) (is_termination : Bool) : Except PyExc MessageRouteKey :=
  if from_node_name ∈ b.reachable_nodes then
    if containsKey b.routes (outcome, from_node_name) then
      .error (.valueError (duplicateText outcome from_node_name))
    else
      .ok (outcome, from_node_name)
  else
    .error (.valueError (unreachableText is_termination from_node_name))

/-- `_MessageFlowBuilder.with_callbacks` (lines 210-229): a new builder
with the handler attached; every other field is copied. -/
def MFBuilder.with_callbacks (b : MFBuilder) (handler : CallbackHandler) : MFBuilder :=
  { name := b.name, start_node := b.start_node, routes := b.routes,
    reachable_nodes := b.reachable_nodes, callbacks := some handler }

/-- `_MessageFlowBuilder.route` (lines 231-271): validate, then return a
new builder with `\x7b**routes, route_key: to_node\x7d` (the key is fresh, so
this appends) and `to_node.name` added to the reachable set. -/
def MFBuilder.route (b : MFBuilder) (from_node : PyNode) (outcome : String)
    (to_node : PyNode) : Except PyExc MFBuilder :=
  match validateAndCreateRoute b from_node.name outcome false with
  | .error e => .error e
  | .ok key =>
    .ok { name := b.name, start_node := b.start_node,
          routes := b.routes ++ [(key, some to_node)],
          reachable_nodes := insertName b.reachable_nodes to_node.name,
          callbacks := b.callbacks }

/-- `_MessageFlowBuilder.end` (lines 273-298): validate as a termination
route, then return a completed `MessageFlow` whose routes are
`\x7b**routes, route_key: None\x7d`. -/
def MFBuilder.end_ (b : MFBuilder) (from_node : PyNode) (outcome : String) :
    Except PyExc MessageFlow :=
  match validateAndCreateRoute b from_node.name outcome true with
  | .error e => .error e
  | .ok key =>
    .ok { name := b.name, start_node := b.start_node,
          routes := b.routes ++ [(key, none)],
          callbacks := b.callbacks }

/-- `message_flow(name, start_node)` (lines 301-329): the initial builder —
no routes, the start node reachable, no callbacks. -/
def message_flow (name : String) (start_node : PyNode) : MFBuilder :=
  { name := name, start_node := start_node, routes := [],
    reachable_nodes := [start_node.name], callbacks := none }

/-- Builders obtainable through the public API: `message_flow` followed by
any sequence of successful `route` and `with_callbacks` calls. -/
inductive BuilderReach : MFBuilder → Prop where
  | init (name : String) (start : PyNode) : BuilderReach (message_flow name start)
  | route {b b2 : MFBuilder} {f t : PyNode} {o : String} :
      BuilderReach b → b.route f o t = .ok b2 → BuilderReach b2
  | callbacks {b : MFBuilder} {h : CallbackHandler} :
      BuilderReach b → BuilderReach (b.with_callbacks h)

/-- An observer, from `clearflow/observer.py` (`Observer`): a name and an
asynchronous `observe` for side effects only, which either returns or
raises. -/
structure Observer where
  name : String
  observe : Message → Except PyExc Unit

/-- `ObservableFlow` (`clearflow/observer.py` lines 41-167): a wrapped core
flow plus a mapping from message type (by name) to the tuple of observers
registered for it, in insertion order. -/
structure ObservableFlow where
  core_flow : MessageFlow
  observers : List (String × List Observer)

/-- `ObservableFlow.observe` (lines 55-70): append the observer to the
tuple for `message_type` (`\x7b**observers, t: (*current, observer)\x7d`). -/
def ObservableFlow.addObserver (f : ObservableFlow) (message_type : String)
    (obs : Observer) : ObservableFlow :=
  match f.observers.lookup message_type with
  | some current =>
    { f with observers :=
        f.observers.map (fun p => if p.1 = message_type then (p.1, current ++ [obs]) else p) }
  | none => { f with observers := f.observers ++ [(message_type, [obs])] }

/-- `ObservableFlow._get_observers_for` (lines 147-167): the observers
registered for the exact type, followed by those registered for a proper
supertype (the `issubclass` walk); `sub t s` models `issubclass(t, s)` in
the ambient Python class hierarchy. -/
def getObserversFor (sub : String → String → Bool) (f : ObservableFlow)
    (message_type : String) : List Observer :=
  ((f.observers.lookup message_type).getD [])
    ++ f.observers.flatMap
        (fun p => if p.1 ≠ message_type ∧ sub message_type p.1 = true then p.2 else [])

/-- `ObservableFlow._safe_observe` (lines 133-145): run the observer;
if it raises, log `"Observer \x7bname\x7d failed"` and swallow the exception.
The returned list is the log lines produced. -/
def safeObserve (obs : Observer) (m : Message) : List String :=
  match obs.observe m with
  | .ok _ => []
  | .error _ => ["Observer " ++ obs.name ++ " failed"]

/-- `ObservableFlow._notify_observers` (lines 118-131): run `_safe_observe`
for every matching observer (concurrently via `asyncio.gather` with
`return_exceptions=True`; results are discarded, so only the log lines
remain observable). -/
def notifyObservers (sub : String → String → Bool) (f : ObservableFlow)
    (m : Message) : List String :=
  (getObserversFor sub f m.typeName).flatMap (fun obs => safeObserve obs m)

/-- The `while True` loop of `ObservableFlow._execute_with_interception`
(lines 100-116), fuelled: run the node (a raise propagates — there is no
try/except here), notify observers of the output, then look the key
`(type(output), current_node.name)` up with `routes.get`: when the result
is `None` — key absent, or present with destination `None` — return the
output; otherwise continue. -/
def obsLoop (sub : String → String → Bool) (f : ObservableFlow) :
    Nat → PyNode → Message → Outcome × List String
  | 0, _, _ => (.fuelOut, [])
  | fuel + 1, node, msg =>
    match node.process msg with
    | .error e => (.exc e, [])
    | .ok out =>
      let log := notifyObservers sub f out
      match lookupRoute f.core_flow.routes (out.typeName, node.name) with
      | some (some next) =>
        let r := obsLoop sub f fuel next out
        (r.1, log ++ r.2)
      | _ => (.ok out, log)

/-- `ObservableFlow.execute` / `_execute_with_interception` (lines 72-116):
notify observers of the initial message, then run the loop from the core
flow start node. -/
def ObservableFlow.execute (f : ObservableFlow) (sub : String → String → Bool)
    (fuel : Nat) (start_message : Message) : Outcome × List String :=
  let log0 := notifyObservers sub f start_message
  let r := obsLoop sub f fuel f.core_flow.start_node start_message
  (r.1, log0 ++ r.2)

/-! Concrete fixtures, used by witnesses and counterexamples. -/

/-- A concrete initial command message. -/
def cmd0 : Message :=
  { typeName := "ProcessCommand", objId := 1, id := 10, triggered_by_id := none,
    timestamp := 0, flow_id := 5, payload := 0 }

/-- A concrete event message, caused by `cmd0`. -/
def evt0 : Message :=
  { typeName := "ProcessedEvent", objId := 2, id := 11, triggered_by_id := some 10,
    timestamp := 1, flow_id := 5, payload := 0 }

/-- A concrete node that always returns `evt0`. -/
def nodeA : PyNode := { name := "A", process := fun _ => .ok evt0 }

/-- A concrete destination node (never reached in the fixtures). -/
def nodeB : PyNode := { name := "B", process := fun _ => .ok evt0 }

/-- The single-node flow `message_flow("fl", nodeA).end(nodeA, ProcessedEvent)`. -/
def flowA : MessageFlow :=
  { name := "fl", start_node := nodeA, routes := [(("ProcessedEvent", "A"), none)],
    callbacks := none }

/-- A flow with an empty route table: every produced message is unrouted. -/
def flowEmpty : MessageFlow :=
  { name := "fl", start_node := nodeA, routes := [], callbacks := none }

example : MFBuilder.end_ (message_flow "fl" nodeA) nodeA "ProcessedEvent" = .ok flowA := rfl

example : (flowA.processRun 2 cmd0).1 = .ok evt0 := rfl

example : (flowEmpty.processRun 2 cmd0).1 = .exc (unroutedError "ProcessedEvent" "A") := rfl

/-! Shared lemmas about the builder and the route table. -/

theorem validate_ok_iff {b : MFBuilder} {nm o : String} {term : Bool} {k : MessageRouteKey}
    (h : validateAndCreateRoute b nm o term = .ok k) :
    nm ∈ b.reachable_nodes ∧ containsKey b.routes (o, nm) = false ∧ k = (o, nm) := by
  unfold validateAndCreateRoute at h
  by_cases hr : nm ∈ b.reachable_nodes
  · simp only [hr, if_true] at h
    by_cases hd : containsKey b.routes (o, nm) = true
    · simp [hd] at h
    · simp only [Bool.not_eq_true] at hd
      simp only [hd, Bool.false_eq_true, if_false] at h
      exact ⟨hr, hd, (Except.ok.injEq _ _).mp h |>.symm⟩
  · simp [hr] at h

theorem mem_insertName {l : List String} {x : String} (n : String) (h : x ∈ l) :
    x ∈ insertName l n := by
  unfold insertName
  split
  · exact h
  · exact List.mem_append_left _ h

theorem lookupRoute_append_single {rs : RouteTable} {k0 k : MessageRouteKey}
    {v : Option PyNode} :
    lookupRoute (rs ++ [(k0, v)]) k
      = match lookupRoute rs k with
        | some d => some d
        | none => if k0 = k then some v else none := by
  induction rs with
  | nil => simp [lookupRoute]
  | cons e rest ih =>
    by_cases h : e.1 = k
    · simp [lookupRoute, h]
    · simp only [List.cons_append, lookupRoute, h, if_false]
      exact ih

theorem containsKey_append_single {rs : RouteTable} {k0 k : MessageRouteKey}
    {v : Option PyNode} (h : containsKey (rs ++ [(k0, v)]) k = true) :
    containsKey rs k = true ∨ k = k0 := by
  unfold containsKey at h ⊢
  rw [lookupRoute_append_single] at h
  rcases hl : lookupRoute rs k with _ | d
  · rw [hl] at h
    have h2 : (if k0 = k then some v else none).isSome = true := h
    by_cases he : k0 = k
    · exact Or.inr he.symm
    · simp [he] at h2
  · exact Or.inl rfl

/-- Builder invariant: before `end`, every route destination is a node
(`route` is the only way to add an entry and it never stores `None`). -/
theorem builderReach_no_terminal {b : MFBuilder} (hb : BuilderReach b) :
    ∀ e ∈ b.routes, e.2.isSome = true := by
  induction hb with
  | init name start => intro e he; simp [message_flow] at he
  | route hb2 hok ih =>
    rename_i b1 b2 f t o
    intro e he
    unfold MFBuilder.route at hok
    rcases hv : validateAndCreateRoute b1 f.name o false with e2 | key
    · rw [hv] at hok; exact absurd hok (by simp)
    · rw [hv] at hok
      have hb2eq := (Except.ok.injEq _ _).mp hok
      rw [← hb2eq] at he
      simp only at he
      rcases List.mem_append.mp he with h1 | h2
      · exact ih e h1
      · rcases List.mem_singleton.mp h2 with rfl
        rfl
  | callbacks hb2 ih =>
    intro e he
    exact ih e he

/-- Builder invariant: every keyed source node is reachable from the
start (it was reachable when the route was added, and reachability only
grows). -/
theorem builderReach_keys_reachable {b : MFBuilder} (hb : BuilderReach b) :
    ∀ k : MessageRouteKey, containsKey b.routes k = true → k.2 ∈ b.reachable_nodes := by
  induction hb with
  | init name start => intro k hk; simp [message_flow, containsKey, lookupRoute] at hk
  | route hb2 hok ih =>
    rename_i b1 b2 f t o
    intro k hk
    unfold MFBuilder.route at hok
    rcases hv : validateAndCreateRoute b1 f.name o false with e2 | key
    · rw [hv] at hok; exact absurd hok (by simp)
    · rw [hv] at hok
      obtain ⟨hreach, _, hkey⟩ := validate_ok_iff hv
      have hb2eq := (Except.ok.injEq _ _).mp hok
      rw [← hb2eq] at hk ⊢
      simp only at hk ⊢
      rcases containsKey_append_single hk with h1 | h2
      · exact mem_insertName _ (ih k h1)
      · rw [h2, hkey]
        exact mem_insertName _ hreach
  | callbacks hb2 ih =>
    intro k hk
    exact ih k hk

/-- In a route table whose proper entries all have node destinations, a
lookup that answers the terminal marker can only have hit the single
appended terminal entry. -/
theorem lookup_terminal_unique {rs : RouteTable} (hall : ∀ e ∈ rs, e.2.isSome = true)
    {k0 k : MessageRouteKey}
    (h : lookupRoute (rs ++ [(k0, (none : Option PyNode))]) k = some none) : k = k0 := by
  induction rs with
  | nil =>
    simp only [List.nil_append, lookupRoute] at h
    by_cases he : k0 = k
    · exact he.symm
    · simp [he] at h
  | cons e rest ih =>
    simp only [List.cons_append, lookupRoute] at h
    by_cases he : e.1 = k
    · rw [if_pos he] at h
      have : e.2 = none := by
        have := (Option.some.injEq _ _).mp h
        exact this
      have hs := hall e (List.mem_cons_self e rest)
      rw [this] at hs
      simp at hs
    · rw [if_neg he] at h
      exact ih (fun e2 he2 => hall e2 (List.mem_cons_of_mem e he2)) h

/-- Number of terminal entries in a route table. -/
def countTerminals (rs : RouteTable) : Nat :=
  (rs.filter (fun e => e.2.isNone)).length

theorem countTerminals_all_some {rs : RouteTable} (hall : ∀ e ∈ rs, e.2.isSome = true) :
    countTerminals rs = 0 := by
  unfold countTerminals
  have hnil : rs.filter (fun e => e.2.isNone) = [] := by
    rw [List.filter_eq_nil_iff]
    intro e he
    have := hall e he
    cases h2 : e.2 with
    | none => rw [h2] at this; simp at this
    | some d => simp [h2]
  rw [hnil]
  rfl

theorem countTerminals_append_terminal (rs : RouteTable) (k : MessageRouteKey) :
    countTerminals (rs ++ [(k, (none : Option PyNode))]) = countTerminals rs + 1 := by
  unfold countTerminals
  rw [List.filter_append]
  simp [List.filter]

/-! Shared lemmas about the executor loop.  The four step equations below
unfold one iteration of `processLoop` for each of its branches: node
raise, unrouted output, terminal output, and routed continuation. -/

theorem processLoop_succ_raise {F : MessageFlow} {k : Nat} {n : PyNode} {m : Message}
    {e : PyExc} (hp : n.process m = .error e) :
    processLoop F (k + 1) n m =
      (.exc e,
       [CbEvent.nodeStart n.name m, CbEvent.nodeEnd n.name m (some e),
        CbEvent.flowEnd F.name m (some e)],
       safeCallback F.callbacks (CbEvent.nodeStart n.name m)
         ++ safeCallback F.callbacks (CbEvent.nodeEnd n.name m (some e))
         ++ safeCallback F.callbacks (CbEvent.flowEnd F.name m (some e))) := by
  simp only [processLoop, hp]

theorem processLoop_succ_unrouted {F : MessageFlow} {k : Nat} {n : PyNode} {m out : Message}
    (hp : n.process m = .ok out)
    (hl : lookupRoute F.routes (out.typeName, n.name) = none) :
    processLoop F (k + 1) n m =
      (.exc (unroutedError out.typeName n.name),
       [CbEvent.nodeStart n.name m, CbEvent.nodeEnd n.name out none,
        CbEvent.flowEnd F.name m (some (unroutedError out.typeName n.name))],
       safeCallback F.callbacks (CbEvent.nodeStart n.name m)
         ++ safeCallback F.callbacks (CbEvent.nodeEnd n.name out none)
         ++ safeCallback F.callbacks
             (CbEvent.flowEnd F.name m (some (unroutedError out.typeName n.name)))) := by
  simp only [processLoop, hp, hl]

theorem processLoop_succ_terminal {F : MessageFlow} {k : Nat} {n : PyNode} {m out : Message}
    (hp : n.process m = .ok out)
    (hl : lookupRoute F.routes (out.typeName, n.name) = some none) :
    processLoop F (k + 1) n m =
      (.ok out,
       [CbEvent.nodeStart n.name m, CbEvent.nodeEnd n.name out none,
        CbEvent.flowEnd F.name out none],
       safeCallback F.callbacks (CbEvent.nodeStart n.name m)
         ++ safeCallback F.callbacks (CbEvent.nodeEnd n.name out none)
         ++ safeCallback F.callbacks (CbEvent.flowEnd F.name out none)) := by
  simp only [processLoop, hp, hl]

theorem processLoop_succ_next {F : MessageFlow} {k : Nat} {n next : PyNode} {m out : Message}
    (hp : n.process m = .ok out)
    (hl : lookupRoute F.routes (out.typeName, n.name) = some (some next)) :
    processLoop F (k + 1) n m =
      ((processLoop F k next out).1,
       CbEvent.nodeStart n.name m :: CbEvent.nodeEnd n.name out none
         :: (processLoop F k next out).2.1,
       safeCallback F.callbacks (CbEvent.nodeStart n.name m)
         ++ safeCallback F.callbacks (CbEvent.nodeEnd n.name out none)
         ++ (processLoop F k next out).2.2) := by
  simp only [processLoop, hp, hl]

/-- A normal return of the dispatch loop can only come from a lookup that
answered the terminal marker for the returned message's concrete type. -/
theorem processLoop_ok_lookup :
    ∀ (fuel : Nat) (F : MessageFlow) (n : PyNode) (m out : Message),
      (processLoop F fuel n m).1 = .ok out →
      ∃ nodeName, lookupRoute F.routes (out.typeName, nodeName) = some none := by
  intro fuel
  induction fuel with
  | zero => intro F n m out h; exact absurd h (by simp [processLoop])
  | succ k ih =>
    intro F n m out h
    rcases hp : n.process m with e | o2
    · rw [processLoop_succ_raise hp] at h
      exact absurd h (by simp)
    · rcases hl : lookupRoute F.routes (o2.typeName, n.name) with _ | dest
      · rw [processLoop_succ_unrouted hp hl] at h
        exact absurd h (by simp)
      · rcases dest with _ | next
        · rw [processLoop_succ_terminal hp hl] at h
          have ho : o2 = out := (Outcome.ok.injEq _ _).mp h
          exact ⟨n.name, by rw [← ho]; exact hl⟩
        · rw [processLoop_succ_next hp hl] at h
          exact ih F next o2 out h

/-- The outcome and the event trace of the dispatch loop do not depend on
the attached callback handler: `_safe_callback` swallows hook exceptions,
so the handler only influences the stderr log. -/
theorem processLoop_callbacks_irrelevant (F : MessageFlow) (c1 c2 : Option CallbackHandler) :
    ∀ (fuel : Nat) (n : PyNode) (m : Message),
      (processLoop { F with callbacks := c1 } fuel n m).1
          = (processLoop { F with callbacks := c2 } fuel n m).1
        ∧ (processLoop { F with callbacks := c1 } fuel n m).2.1
          = (processLoop { F with callbacks := c2 } fuel n m).2.1 := by
  intro fuel
  induction fuel with
  | zero => intro n m; exact ⟨rfl, rfl⟩
  | succ k ih =>
    intro n m
    rcases hp : n.process m with e | out
    · rw [processLoop_succ_raise (F := { F with callbacks := c1 }) hp,
        processLoop_succ_raise (F := { F with callbacks := c2 }) hp]
      exact ⟨rfl, rfl⟩
    · rcases hl : lookupRoute F.routes (out.typeName, n.name) with _ | dest
      · rw [processLoop_succ_unrouted (F := { F with callbacks := c1 }) hp hl,
          processLoop_succ_unrouted (F := { F with callbacks := c2 }) hp hl]
        exact ⟨rfl, rfl⟩
      · rcases dest with _ | next
        · rw [processLoop_succ_terminal (F := { F with callbacks := c1 }) hp hl,
            processLoop_succ_terminal (F := { F with callbacks := c2 }) hp hl]
          exact ⟨rfl, rfl⟩
        · rw [processLoop_succ_next (F := { F with callbacks := c1 }) hp hl,
            processLoop_succ_next (F := { F with callbacks := c2 }) hp hl]
          obtain ⟨h1, h2⟩ := ih next out
          exact ⟨h1, by simp only [h2]⟩

/-- Well-formed hop sequence: a concatenation of `nodeStart`/`nodeEnd`
pairs, the two events of each pair naming the same node. -/
inductive HopSeq : List CbEvent → Prop where
  | nil : HopSeq []
  | cons {n : String} {m m2 : Message} {e : Option PyExc} {rest : List CbEvent} :
      HopSeq rest → HopSeq (CbEvent.nodeStart n m :: CbEvent.nodeEnd n m2 e :: rest)

/-- Whether an event is one of the two per-node hooks. -/
def isNodeEvent : CbEvent → Bool
  | .nodeStart _ _ => true
  | .nodeEnd _ _ _ => true
  | _ => false

theorem hopSeq_node_events {l : List CbEvent} (h : HopSeq l) :
    ∀ e ∈ l, isNodeEvent e = true := by
  induction h with
  | nil => intro e he; simp at he
  | cons h2 ih =>
    intro e he
    rcases he with _ | ⟨_, he2⟩
    · rfl
    · rcases he2 with _ | ⟨_, he3⟩
      · rfl
      · exact ih e he3

/-- When the dispatch loop finishes (normal return or raise), its event
trace is a hop sequence followed by exactly one `on_flow_end`. -/
theorem processLoop_trace_shape :
    ∀ (fuel : Nat) (F : MessageFlow) (n : PyNode) (m : Message),
      (processLoop F fuel n m).1 ≠ .fuelOut →
      ∃ hops m2 err, (processLoop F fuel n m).2.1 = hops ++ [CbEvent.flowEnd F.name m2 err]
        ∧ HopSeq hops := by
  intro fuel
  induction fuel with
  | zero => intro F n m h; exact absurd rfl h
  | succ k ih =>
    intro F n m h
    rcases hp : n.process m with e | out
    · rw [processLoop_succ_raise hp]
      exact ⟨[CbEvent.nodeStart n.name m, CbEvent.nodeEnd n.name m (some e)], m, some e,
        rfl, HopSeq.cons HopSeq.nil⟩
    · rcases hl : lookupRoute F.routes (out.typeName, n.name) with _ | dest
      · rw [processLoop_succ_unrouted hp hl]
        exact ⟨[CbEvent.nodeStart n.name m, CbEvent.nodeEnd n.name out none], m,
          some (unroutedError out.typeName n.name), rfl, HopSeq.cons HopSeq.nil⟩
      · rcases dest with _ | next
        · rw [processLoop_succ_terminal hp hl]
          exact ⟨[CbEvent.nodeStart n.name m, CbEvent.nodeEnd n.name out none], out,
            none, rfl, HopSeq.cons HopSeq.nil⟩
        · rw [processLoop_succ_next hp hl] at h ⊢
          obtain ⟨hops, m2, err, htr, hseq⟩ := ih F next out h
          refine ⟨CbEvent.nodeStart n.name m :: CbEvent.nodeEnd n.name out none :: hops,
            m2, err, ?_, HopSeq.cons hseq⟩
          simp only [htr, List.cons_append]

/-! Claim theorems. -/

/-- C2: for every flow and every initial message, running with any
attached callback handler — whose hooks may raise arbitrarily — yields
the same outcome (same final message, or same propagated node error) as
running with no handler attached; handler exceptions never surface to the
caller.  `_safe_callback` catches every hook exception and only writes a
diagnostic line, so the handler can influence the stderr log but neither
the outcome nor the event order. -/
theorem flow_result_independent_of_callbacks (F : MessageFlow) (h : CallbackHandler)
    (fuel : Nat) (m : Message) :
    (MessageFlow.processRun { F with callbacks := some h } fuel m).1
      = (MessageFlow.processRun { F with callbacks := none } fuel m).1 := by
  have := (processLoop_callbacks_irrelevant F (some h) none fuel F.start_node m).1
  exact this

/-- C3: for every flow F built through the public builder (`message_flow`,
then `route`/`with_callbacks` calls, then `end(f, T)`), whenever
`F.process` returns normally, the returned message's concrete type is
exactly the outcome type `T` declared on the unique terminal edge. -/
theorem built_flow_terminal_type {b : MFBuilder} (hb : BuilderReach b) {f : PyNode}
    {T : String} {F : MessageFlow} (hend : b.end_ f T = .ok F) (fuel : Nat)
    (M out : Message) (hrun : (F.processRun fuel M).1 = .ok out) :
    out.typeName = T := by
  unfold MFBuilder.end_ at hend
  rcases hv : validateAndCreateRoute b f.name T true with e | key
  · rw [hv] at hend; exact absurd hend (by simp)
  · rw [hv] at hend
    obtain ⟨_, _, hkey⟩ := validate_ok_iff hv
    have hF := (Except.ok.injEq _ _).mp hend
    have hroutes : F.routes = b.routes ++ [(key, none)] := by rw [← hF]
    have hok : (processLoop F fuel F.start_node M).1 = .ok out := hrun
    obtain ⟨nm, hl⟩ := processLoop_ok_lookup fuel F F.start_node M out hok
    rw [hroutes] at hl
    have hkk := lookup_terminal_unique (builderReach_no_terminal hb) hl
    rw [hkey] at hkk
    exact ((Prod.mk.injEq _ _ _ _).mp hkk).1

/-- C4: whenever the node executed at the current hop returns a message
whose `(concrete type, node name)` key has no entry in the route table,
the executor raises a `ValueError` whose text carries the concrete type
and the node name, the trace ends with `on_flow_end` carrying that error,
and the error is the outcome delivered to the caller.  The hop is an
arbitrary loop state `(n, m)`. -/
theorem unrouted_message_raises (F : MessageFlow) (fuel : Nat) (n : PyNode)
    (m out : Message) (hp : n.process m = .ok out)
    (hl : lookupRoute F.routes (out.typeName, n.name) = none) :
    (processLoop F (fuel + 1) n m).1 = .exc (unroutedError out.typeName n.name)
      ∧ (processLoop F (fuel + 1) n m).2.1
          = [CbEvent.nodeStart n.name m, CbEvent.nodeEnd n.name out none,
             CbEvent.flowEnd F.name m (some (unroutedError out.typeName n.name))]
      ∧ ∃ s1 s2 s3, unroutedText out.typeName n.name
          = s1 ++ out.typeName ++ s2 ++ n.name ++ s3 := by
  rw [processLoop_succ_unrouted hp hl]
  exact ⟨rfl, rfl, "No route defined for message type \x27", "\x27 from node \x27", "\x27", rfl⟩

/-- C9: for every flow execution that returns or raises, the emitted
callback trace is exactly one `on_flow_start`, first; then a sequence of
`on_node_start`/`on_node_end` pairs, each pair naming the same node; then
exactly one `on_flow_end`, last — whether the flow succeeded or failed.
The hop list contains only node events, so the flow events occur exactly
once each, bracketing the whole execution. -/
theorem callback_trace_well_bracketed (F : MessageFlow) (fuel : Nat) (M : Message)
    (h : (F.processRun fuel M).1 ≠ .fuelOut) :
    ∃ hops m2 err,
      (F.processRun fuel M).2.1
          = CbEvent.flowStart F.name M :: (hops ++ [CbEvent.flowEnd F.name m2 err])
        ∧ HopSeq hops
        ∧ ∀ e ∈ hops, isNodeEvent e = true := by
  have h2 : (processLoop F fuel F.start_node M).1 ≠ .fuelOut := h
  obtain ⟨hops, m2, err, htr, hseq⟩ := processLoop_trace_shape fuel F F.start_node M h2
  refine ⟨hops, m2, err, ?_, hseq, hopSeq_node_events hseq⟩
  show CbEvent.flowStart F.name M :: (processLoop F fuel F.start_node M).2.1 = _
  rw [htr]

/-- C5: the builder operations are non-destructive.  `route` returns a new
builder whose name, start node and callbacks are the originals, whose
routes are the original table with exactly the one new entry appended,
and whose reachable set is the original with the destination name added;
`with_callbacks` returns a new builder copying every other field; `end`
returns a flow copying name, start node and callbacks, with exactly the
terminal entry appended.  The original builder's fields are never written
(the embedded code constructs fresh objects; all classes are frozen), so
the original builder remains valid and usable afterwards. -/
theorem builder_operations_preserve_fields (b : MFBuilder) (f t : PyNode) (o : String)
    (h : CallbackHandler) :
    (∀ b2, b.route f o t = .ok b2 →
        b2.name = b.name ∧ b2.start_node = b.start_node ∧ b2.callbacks = b.callbacks
          ∧ b2.routes = b.routes ++ [((o, f.name), some t)]
          ∧ b2.reachable_nodes = insertName b.reachable_nodes t.name)
      ∧ ((b.with_callbacks h).name = b.name
          ∧ (b.with_callbacks h).start_node = b.start_node
          ∧ (b.with_callbacks h).routes = b.routes
          ∧ (b.with_callbacks h).reachable_nodes = b.reachable_nodes)
      ∧ (∀ F, b.end_ f o = .ok F →
          F.name = b.name ∧ F.start_node = b.start_node ∧ F.callbacks = b.callbacks
            ∧ F.routes = b.routes ++ [((o, f.name), none)]) := by
  refine ⟨?_, ⟨rfl, rfl, rfl, rfl⟩, ?_⟩
  · intro b2 hr
    unfold MFBuilder.route at hr
    rcases hv : validateAndCreateRoute b f.name o false with e | key
    · rw [hv] at hr; exact absurd hr (by simp)
    · rw [hv] at hr
      obtain ⟨_, _, hkey⟩ := validate_ok_iff hv
      rw [← (Except.ok.injEq _ _).mp hr, hkey]
      exact ⟨rfl, rfl, rfl, rfl, rfl⟩
  · intro F hr
    unfold MFBuilder.end_ at hr
    rcases hv : validateAndCreateRoute b f.name o true with e | key
    · rw [hv] at hr; exact absurd hr (by simp)
    · rw [hv] at hr
      obtain ⟨_, _, hkey⟩ := validate_ok_iff hv
      rw [← (Except.ok.injEq _ _).mp hr, hkey]
      exact ⟨rfl, rfl, rfl, rfl⟩

/-- C7: on a builder reachable through the public API whose routes already
key `(outcome o, source node f)`, `route(f, o, t)` raises the duplicate
route `ValueError`, whose text carries both the outcome type and the node
name, for every destination `t`; and the original builder remains usable:
any route from `f` with a not-yet-keyed outcome still succeeds on it. -/
theorem duplicate_route_rejected {b : MFBuilder} (hb : BuilderReach b) (f t : PyNode)
    (o : String) (hk : containsKey b.routes (o, f.name) = true) :
    b.route f o t = .error (.valueError (duplicateText o f.name))
      ∧ (∃ s1 s2 s3, duplicateText o f.name = s1 ++ o ++ s2 ++ f.name ++ s3)
      ∧ ∀ (o2 : String) (t2 : PyNode), containsKey b.routes (o2, f.name) = false →
          ∃ b2, b.route f o2 t2 = .ok b2 := by
  have hreach : f.name ∈ b.reachable_nodes := builderReach_keys_reachable hb (o, f.name) hk
  refine ⟨?_, ⟨"Route already defined for message type \x27", "\x27 from node \x27", "\x27",
    rfl⟩, ?_⟩
  · simp [MFBuilder.route, validateAndCreateRoute, hreach, hk]
  · intro o2 t2 hk2
    refine ⟨MFBuilder.mk b.name b.start_node (b.routes ++ [((o2, f.name), some t2)])
      (insertName b.reachable_nodes t2.name) b.callbacks, ?_⟩
    simp [MFBuilder.route, validateAndCreateRoute, hreach, hk2]

/-- Flow obtained by ending the one-node builder with outcome `EvtX`. -/
def flowX : MessageFlow :=
  { name := "fl", start_node := nodeA, routes := [(("EvtX", "A"), none)],
    callbacks := none }

/-- Flow obtained by ending the same builder a second time, with `EvtY`. -/
def flowY : MessageFlow :=
  { name := "fl", start_node := nodeA, routes := [(("EvtY", "A"), none)],
    callbacks := none }

/-- C8 counterexample: a second `end` on the same builder lineage is not
rejected.  Both `end` calls on the very same builder succeed and each
produces a flow — contradicting the claim that such a construction "is
rejected at build time and no flow is produced". -/
theorem second_end_not_rejected :
    MFBuilder.end_ (message_flow "fl" nodeA) nodeA "EvtX" = .ok flowX
      ∧ MFBuilder.end_ (message_flow "fl" nodeA) nodeA "EvtY" = .ok flowY :=
  ⟨rfl, rfl⟩

/-- C8 as amended: every flow produced by a builder's terminal `end` has a
route table with exactly one terminal (None-destination) entry.  More
than one terminal entry is unrepresentable through the builder API —
`route` never stores a terminal destination and `end` appends exactly
one — so no build-time rejection exists or is needed; in particular a
second `end` on the same builder succeeds and yields a separate flow,
again with exactly one terminal entry. -/
theorem built_flow_unique_terminal {b : MFBuilder} (hb : BuilderReach b) {f : PyNode}
    {T : String} {F : MessageFlow} (hend : b.end_ f T = .ok F) :
    countTerminals F.routes = 1 := by
  unfold MFBuilder.end_ at hend
  rcases hv : validateAndCreateRoute b f.name T true with e | key
  · rw [hv] at hend; exact absurd hend (by simp)
  · rw [hv] at hend
    have hroutes : F.routes = b.routes ++ [(key, none)] := by
      rw [← (Except.ok.injEq _ _).mp hend]
    rw [hroutes, countTerminals_append_terminal,
      countTerminals_all_some (builderReach_no_terminal hb)]

/-- A concrete message instance. -/
def msgTwinA : Message :=
  { typeName := "ProcessCommand", objId := 1, id := 7, triggered_by_id := none,
    timestamp := 3, flow_id := 9, payload := 4 }

/-- A distinct instance (different object identity) with the same field
values as `msgTwinA`. -/
def msgTwinB : Message :=
  { typeName := "ProcessCommand", objId := 2, id := 7, triggered_by_id := none,
    timestamp := 3, flow_id := 9, payload := 4 }

/-- C6 counterexample: message equality is not by identity.  `Message` is
a frozen dataclass, so `__eq__` compares the field tuple: two distinct
instances (different object identity) constructed with the same field
values compare equal, contradicting "m1 == m2 evaluates to false" for
every pair of distinct instances. -/
theorem message_equality_not_identity :
    msgTwinA.objId ≠ msgTwinB.objId ∧ messageEq msgTwinA msgTwinB = true :=
  ⟨by decide, by decide⟩

/-- C6 as amended: `Message` equality is by value — two instances compare
equal exactly when their concrete class and all dataclass fields agree,
regardless of object identity — and every instance is hashable with a
hash determined by the field values (so equal messages hash equal and
messages are usable as map keys). -/
theorem message_value_equality_and_hash (m1 m2 : Message) :
    (messageEq m1 m2 = true ↔
        m1.typeName = m2.typeName ∧ m1.id = m2.id
          ∧ m1.triggered_by_id = m2.triggered_by_id ∧ m1.timestamp = m2.timestamp
          ∧ m1.flow_id = m2.flow_id ∧ m1.payload = m2.payload)
      ∧ (messageEq m1 m2 = true → messageHash m1 = messageHash m2) := by
  have hiff : messageEq m1 m2 = true ↔
      m1.typeName = m2.typeName ∧ m1.id = m2.id
        ∧ m1.triggered_by_id = m2.triggered_by_id ∧ m1.timestamp = m2.timestamp
        ∧ m1.flow_id = m2.flow_id ∧ m1.payload = m2.payload := by
    unfold messageEq
    simp [Bool.and_eq_true, beq_iff_eq, and_assoc]
  refine ⟨hiff, fun h => ?_⟩
  obtain ⟨h1, h2, h3, h4, h5, h6⟩ := hiff.mp h
  unfold messageHash
  rw [h1, h2, h3, h4, h5, h6]

/-! Lemmas and fixtures for the observer decorator. -/

theorem obsLoop_succ_return {sub : String → String → Bool} {f : ObservableFlow}
    {k : Nat} {n : PyNode} {m out : Message} (hp : n.process m = .ok out)
    (hl : lookupRoute f.core_flow.routes (out.typeName, n.name) = none) :
    obsLoop sub f (k + 1) n m = (.ok out, notifyObservers sub f out) := by
  simp only [obsLoop, hp, hl]

/-- An observer whose `observe` always raises (the security-policy example
of the test suite). -/
def secObs : Observer :=
  { name := "security", observe := fun _ => .error (.userError "SecurityViolation") }

/-- `ObservableFlow(core_flow=flowA)` with `secObs` registered for the
event type that `flowA` terminates with. -/
def obsFlowSec : ObservableFlow :=
  { core_flow := flowA, observers := [("ProcessedEvent", [secObs])] }

/-- A trivial class hierarchy: no concrete type is a proper subtype of a
registered observer key. -/
def noSub : String → String → Bool := fun _ _ => false

/-- C1, evaluated at the failing input: an observer registered for the
produced event type raises during `execute`, yet the flow is not
terminated — `_safe_observe` catches the exception, logs
"Observer security failed", and `execute` returns the final message
normally.  The exception does not propagate to the caller, contradicting
the claimed (and tested) fail-fast behaviour. -/
theorem observer_exception_swallowed :
    ObservableFlow.execute obsFlowSec noSub 2 cmd0
      = (Outcome.ok evt0, ["Observer security failed"]) := by
  decide

/-- C10: inside `ObservableFlow.execute`, a missing route behaves as the
terminal edge.  At any hop whose produced message has no entry for
`(concrete type, node name)` in the wrapped flow's route table, the
wrapper returns that message as the final result (`routes.get` yields
`None` for a missing key exactly as for a terminal entry), while the core
flow's own executor raises the unrouted-message `ValueError` at the same
state. -/
theorem observable_missing_route_is_terminal (sub : String → String → Bool)
    (f : ObservableFlow) (fuel : Nat) (n : PyNode) (m out : Message)
    (hp : n.process m = .ok out)
    (hl : lookupRoute f.core_flow.routes (out.typeName, n.name) = none) :
    (obsLoop sub f (fuel + 1) n m).1 = .ok out
      ∧ (processLoop f.core_flow (fuel + 1) n m).1
          = .exc (unroutedError out.typeName n.name) := by
  constructor
  · rw [obsLoop_succ_return hp hl]
  · rw [processLoop_succ_unrouted hp hl]

/-! Witnesses: each theorem with a hypothesis is exercised once at a
concrete input. -/

/-- The builder after one `route` call from the fixtures. -/
def bRouted : MFBuilder :=
  { name := "fl", start_node := nodeA,
    routes := [(("ProcessedEvent", "A"), some nodeB)],
    reachable_nodes := ["A", "B"], callbacks := none }

/-- A handler with all-default (no-op) hooks. -/
def noopHandler : CallbackHandler :=
  { on_flow_start := fun _ _ => .ok (), on_flow_end := fun _ _ _ => .ok (),
    on_node_start := fun _ _ => .ok (), on_node_end := fun _ _ _ => .ok () }

/-- The observable wrapper around the flow with an empty route table. -/
def obsFlowEmpty : ObservableFlow :=
  { core_flow := flowEmpty, observers := [] }

theorem built_flow_terminal_type_witness :
    MFBuilder.end_ (message_flow "fl" nodeA) nodeA "ProcessedEvent" = .ok flowA
      ∧ (flowA.processRun 2 cmd0).1 = .ok evt0
      ∧ evt0.typeName = "ProcessedEvent" :=
  ⟨rfl, rfl,
    built_flow_terminal_type (BuilderReach.init "fl" nodeA)
      (show MFBuilder.end_ (message_flow "fl" nodeA) nodeA "ProcessedEvent" = .ok flowA
        from rfl) 2 cmd0 evt0 rfl⟩

theorem unrouted_message_raises_witness :
    nodeA.process cmd0 = .ok evt0
      ∧ lookupRoute flowEmpty.routes ("ProcessedEvent", "A") = none
      ∧ (processLoop flowEmpty 1 nodeA cmd0).1 = .exc (unroutedError "ProcessedEvent" "A") :=
  ⟨rfl, rfl, (unrouted_message_raises flowEmpty 0 nodeA cmd0 evt0 rfl rfl).1⟩

theorem builder_operations_preserve_fields_witness :
    (message_flow "fl" nodeA).route nodeA "ProcessedEvent" nodeB = .ok bRouted
      ∧ bRouted.routes
          = (message_flow "fl" nodeA).routes ++ [(("ProcessedEvent", "A"), some nodeB)] :=
  ⟨rfl,
    ((builder_operations_preserve_fields (message_flow "fl" nodeA) nodeA nodeB
        "ProcessedEvent" noopHandler).1 bRouted rfl).2.2.2.1⟩

theorem message_value_equality_and_hash_witness :
    messageEq msgTwinA msgTwinB = true ∧ messageHash msgTwinA = messageHash msgTwinB :=
  ⟨by decide, (message_value_equality_and_hash msgTwinA msgTwinB).2 (by decide)⟩

theorem duplicate_route_rejected_witness :
    containsKey bRouted.routes ("ProcessedEvent", "A") = true
      ∧ bRouted.route nodeA "ProcessedEvent" nodeB
          = .error (.valueError (duplicateText "ProcessedEvent" "A")) :=
  ⟨by decide,
    (duplicate_route_rejected
        (BuilderReach.route (BuilderReach.init "fl" nodeA)
          (show (message_flow "fl" nodeA).route nodeA "ProcessedEvent" nodeB = .ok bRouted
            from rfl))
        nodeA nodeB "ProcessedEvent" (by decide)).1⟩

theorem built_flow_unique_terminal_witness :
    MFBuilder.end_ (message_flow "fl" nodeA) nodeA "EvtX" = .ok flowX
      ∧ countTerminals flowX.routes = 1 :=
  ⟨rfl,
    built_flow_unique_terminal (BuilderReach.init "fl" nodeA)
      (show MFBuilder.end_ (message_flow "fl" nodeA) nodeA "EvtX" = .ok flowX from rfl)⟩

theorem callback_trace_well_bracketed_witness :
    (flowA.processRun 2 cmd0).1 ≠ Outcome.fuelOut
      ∧ ∃ hops m2 err,
          (flowA.processRun 2 cmd0).2.1
              = CbEvent.flowStart "fl" cmd0 :: (hops ++ [CbEvent.flowEnd "fl" m2 err])
            ∧ HopSeq hops ∧ ∀ e ∈ hops, isNodeEvent e = true :=
  ⟨by decide, callback_trace_well_bracketed flowA 2 cmd0 (by decide)⟩

theorem observable_missing_route_is_terminal_witness :
    nodeA.process cmd0 = .ok evt0
      ∧ lookupRoute obsFlowEmpty.core_flow.routes ("ProcessedEvent", "A") = none
      ∧ (obsLoop noSub obsFlowEmpty 1 nodeA cmd0).1 = .ok evt0 :=
  ⟨rfl, rfl,
    (observable_missing_route_is_terminal noSub obsFlowEmpty 0 nodeA cmd0 evt0 rfl rfl).1⟩

end Clearflow
